import Mathlib

/-!
Verification development for the query-compiler core of the `shitpost`
repository.  The definitions below are a shallow embedding of the model
class in `src/MockDatabase/MockDatabase.ts` (schema registry, WHERE /
INCLUDE / ORDER BY / SELECT compilers, row reshaper, query facade) and of
the earlier WHERE-compiler variant in `src/database/Model.ts`.

Modelling conventions:
* A compiled SQL fragment is a list of tokens (`SqlTok`).  A token records
  where its text came from: `kw` is literal text of a template literal,
  `ident` is a string passed to the `sql(...)` identifier helper, and
  `val` is an interpolated value.  Interpolating an array of fragments
  concatenates them, which is how the opaque `sql` builder is used by this
  code.  Runs of whitespace (newlines plus indentation) inside multi-line
  template literals are normalised to a single space.
* JavaScript runtime failures (failed `assert`s, destructuring
  `undefined`, call-stack exhaustion) are modelled by `Option`: `none`
  means the original code throws.  The recursive compilers take an
  explicit `fuel : Nat` standing for the JavaScript call stack.
* JavaScript objects are insertion-ordered association lists; the string
  operations used by `formatRow` (`startsWith "__"`, `split "__"`,
  `trim`) are modelled on character lists so that they compute by `rfl`.
-/

/-- A JavaScript runtime value, as far as rows and reshaping need it. -/
inductive JsValue where
  | undef
  | null
  | bool (b : Bool)
  | num (n : Int)
  | str (s : String)
  | arr (elements : List JsValue)
  | obj (fields : List (String × JsValue))

/-- A JavaScript object: insertion-ordered association list (rows are
`Record<string, unknown>` in the source). -/
abbrev Obj := List (String × JsValue)

/-- `row[key]` as an optional lookup. -/
def jsGet (row : Obj) (key : String) : Option JsValue :=
  (row.find? fun kv => kv.1 == key).map Prod.snd

/-- `row[key]`, yielding JavaScript `undefined` when the key is absent. -/
def jsGetD (row : Obj) (key : String) : JsValue :=
  (jsGet row key).getD JsValue.undef

/-- `delete row[key]`. -/
def jsDelete (row : Obj) (key : String) : Obj :=
  row.filter fun kv => !(kv.1 == key)

/-- `row[key] = v`: replaces the value in place when the key exists,
otherwise appends the property (JavaScript insertion order). -/
def jsSet (row : Obj) (key : String) (v : JsValue) : Obj :=
  if row.any (fun kv => kv.1 == key) then
    row.map fun kv => if kv.1 == key then (key, v) else kv
  else
    row ++ [(key, v)]

/-- Model of `key.startsWith("__")` (MockDatabase.ts line 952), computed on
the character list so the kernel can evaluate it. -/
def startsWithDunder (s : String) : Bool :=
  match s.data with
  | '_' :: '_' :: _ => true
  | _ => false

/-- Model of JavaScript `split("__")` on character lists: greedy
left-to-right scan for the two-underscore separator. -/
def splitOnDunderChars : List Char → List (List Char)
  | [] => [[]]
  | '_' :: '_' :: rest => [] :: splitOnDunderChars rest
  | c :: rest =>
    match splitOnDunderChars rest with
    | [] => [[c]]
    | part :: parts => (c :: part) :: parts

/-- Model of `key.split("__")` (MockDatabase.ts line 956). -/
def jsSplitOnDunder (s : String) : List String :=
  (splitOnDunderChars s.data).map fun cs => String.mk cs

/-- Model of `String.prototype.trim` on character lists. -/
def trimChars (cs : List Char) : List Char :=
  ((cs.dropWhile Char.isWhitespace).reverse.dropWhile Char.isWhitespace).reverse

/-- Model of `row.trim()` (MockDatabase.ts line 957). -/
def jsTrim (s : String) : String := String.mk (trimChars s.data)

/-- One token of a compiled SQL fragment.  `kw` is literal template text,
`ident` is text passed through the `sql(...)` identifier helper, `val` is
an interpolated value. -/
inductive SqlTok where
  | kw (text : String)
  | ident (name : String)
  | val (text : String)
deriving DecidableEq

/-- `ReturnType<typeof sql>` — a compiled fragment is a token list. -/
abbrev SqlFragment := List SqlTok

/-- The raw text a token contributes to the flattened statement. -/
def tokText : SqlTok → String
  | SqlTok.kw t => t
  | SqlTok.ident n => n
  | SqlTok.val t => t

/-- Flatten a fragment to the SQL text it denotes. -/
def flattenSql : SqlFragment → String
  | [] => ""
  | t :: rest => tokText t ++ flattenSql rest

/-- `joinByFragment` (MockDatabase.ts lines 876-888): join fragments by a
separator fragment, like `Array.prototype.join`. -/
def joinByFragment (fragments : List SqlFragment) (joinBy : SqlFragment) : SqlFragment :=
  match fragments with
  | [] => []
  | fragment :: rest => fragment ++ (if rest.isEmpty then [] else joinBy) ++ joinByFragment rest joinBy

/-- Number of `WHERE` keyword tokens in a fragment.  The `WHERE` keyword is
always emitted as its own template literal (`sql`WHERE``, line 777), so it
is exactly the token `kw "WHERE"`. -/
def countWhereTok (fragment : SqlFragment) : Nat :=
  fragment.count (SqlTok.kw "WHERE")

/-- `MockColumnReference`: the referenced table/column of a foreign key. -/
structure MockColumnReference where
  tableName : String
  columnName : String

/-- `MockColumn`: name, SQL type, modifier flags, optional reference. -/
structure MockColumn where
  name : String
  colType : String
  modifierPrimaryKey : Bool
  modifierNotNull : Bool
  modifierDefault : Bool
  reference : Option MockColumnReference

/-- Column constructor with all modifier flags cleared (the claims only
depend on `name` and `reference`). -/
def mkColumn (name colType : String) (reference : Option MockColumnReference) : MockColumn :=
  ⟨name, colType, false, false, false, reference⟩

/-- `MockTable`: a named table and its columns (insertion order). -/
structure MockTable where
  name : String
  columns : List MockColumn

/-- Modelled from the spec: `getColumn(tableName, columnName) -> Column`
lookup of the schema registry (section 4.1).  `MockTable.ts` itself is not
part of the provided sources; only this lookup is used by the model class. -/
def MockTable.getColumn (table : MockTable) (columnName : String) : Option MockColumn :=
  table.columns.find? fun c => c.name == columnName

/-- `MockDatabase`: the schema registry, a mapping from table name to
table (`tables` record, MockDatabase.ts line 8). -/
structure MockDatabase where
  tables : List MockTable

/-- `MockDatabase.getTable` (MockDatabase.ts lines 46-50): `none` models
the failed `assert` when the table does not exist. -/
def MockDatabase.getTable (db : MockDatabase) (tableName : String) : Option MockTable :=
  db.tables.find? fun t => t.name == tableName

/-- The query facade `Model` of MockDatabase.ts (line 477): a table name
plus the schema registry handed to the constructor. -/
structure Model where
  tableName : String
  database : MockDatabase

/-- `createIdentifier` (MockDatabase.ts lines 862-867):
``sql(`${parentTable}.${column}`)``. -/
def createIdentifier (column : String) (parentTable : String) : SqlTok :=
  SqlTok.ident (parentTable ++ "." ++ column)

/-- `findReference` (MockDatabase.ts lines 907-922): look up a column and
require it to carry a reference; `none` models the thrown `assert`. -/
def Model.findReference (m : Model) (columnName : String) (parentTable : String) :
    Option (MockColumn × MockColumnReference) :=
  match m.database.getTable parentTable with
  | none => none
  | some table =>
    match table.getColumn columnName with
    | none => none
    | some column =>
      match column.reference with
      | none => none
      | some ref => some (column, ref)

/-- A value of a filter description (`WhereOperator`): JavaScript
`undefined`, `null`, a scalar (kept in its `String(...)` form), or an
object — which the compiler later interprets either as a nested filter or
as an operator map. -/
inductive FilterValue where
  | undef
  | null
  | scalar (display : String)
  | obj (entries : List (String × FilterValue))

/-- JavaScript `String(...)` / template-literal conversion of a filter
value. -/
def FilterValue.jsString : FilterValue → String
  | FilterValue.undef => "undefined"
  | FilterValue.null => "null"
  | FilterValue.scalar display => display
  | FilterValue.obj _ => "[object Object]"

/-- Sequencing of an option-returning function over a list, propagating
the first failure (models a loop in which an iteration may throw). -/
def optionMapList (f : α → Option β) : List α → Option (List β)
  | [] => some []
  | a :: rest =>
    match f a with
    | none => none
    | some b =>
      match optionMapList f rest with
      | none => none
      | some bs => some (b :: bs)

/-- The tail of `generateWhere` (MockDatabase.ts lines 776-778): prefix
`WHERE` only when requested and at least one fragment was produced, then
join the per-key fragments with `AND`. -/
def whereAssemble (whereFragments : List SqlFragment) (includeWhere : Bool) : SqlFragment :=
  (if includeWhere && !whereFragments.isEmpty then [SqlTok.kw "WHERE"] else [])
    ++ [SqlTok.kw " "] ++ joinByFragment whereFragments [SqlTok.kw " AND "]

/-- `generateWhereObject` (MockDatabase.ts lines 701-750).  The checks
follow the source: `null` gives `IS NULL`; an object is compiled as a
nested filter when the key is a reference of `parentTable` (the recursive
`generateWhere` call — inlined here, see `Model.generateWhere` below —
passes `includeWhere: false`), otherwise as an operator map dispatching on
its first entry; `undefined` and scalars reach the final
``sql`${selector} = ${String(operators)}` `` line.  An empty operator map
crashes (destructuring `Object.entries(operators)[0]`), modelled by
`none`;  an unknown operator falls through the `switch` to the final line. -/
def Model.generateWhereObject (m : Model) : Nat → String → FilterValue → String → Option SqlFragment
  | 0, _, _, _ => none
  | Nat.succ fuel, key, operators, parentTable =>
    let selector := createIdentifier key parentTable
    match operators with
    | FilterValue.null => some [selector, SqlTok.kw " IS NULL"]
    | FilterValue.obj entries =>
      match m.findReference key parentTable with
      | some (_, ref) =>
        (optionMapList (fun kv => m.generateWhereObject fuel kv.1 kv.2 ref.tableName) entries).map
          fun fragments => whereAssemble fragments false
      | none =>
        match entries with
        | [] => none
        | (operator, targetValue) :: _ =>
          match operator with
          | "eq" =>
            match targetValue with
            | FilterValue.null => some [selector, SqlTok.kw " IS NULL"]
            | _ => some [selector, SqlTok.kw " = '", SqlTok.val targetValue.jsString, SqlTok.kw "'"]
          | "neq" =>
            match targetValue with
            | FilterValue.null => some [selector, SqlTok.kw " IS NOT NULL"]
            | _ => some [selector, SqlTok.kw " != '", SqlTok.val targetValue.jsString, SqlTok.kw "'"]
          | "contains" => some [selector, SqlTok.kw " LIKE '%", SqlTok.val targetValue.jsString, SqlTok.kw "%'"]
          | "startsWith" => some [selector, SqlTok.kw " LIKE '", SqlTok.val targetValue.jsString, SqlTok.kw "%'"]
          | "endsWith" => some [selector, SqlTok.kw " LIKE '%", SqlTok.val targetValue.jsString, SqlTok.kw "'"]
          | "gt" => some [selector, SqlTok.kw " > ", SqlTok.val targetValue.jsString]
          | "lt" => some [selector, SqlTok.kw " < ", SqlTok.val targetValue.jsString]
          | "gte" => some [selector, SqlTok.kw " >= ", SqlTok.val targetValue.jsString]
          -- source line 745: the lte branch emits ">=", same as gte
          | "lte" => some [selector, SqlTok.kw " >= ", SqlTok.val targetValue.jsString]
          | _ => some [selector, SqlTok.kw " = ", SqlTok.val "[object Object]"]
    | FilterValue.undef => some [selector, SqlTok.kw " = ", SqlTok.val "undefined"]
    | FilterValue.scalar display => some [selector, SqlTok.kw " = ", SqlTok.val display]

/-- `generateWhere` (MockDatabase.ts lines 752-779): compile every
key/value pair of the filter with `generateWhereObject`, then assemble
(`WHERE` prefix only when `includeWhere` and some fragment exists). -/
def Model.generateWhere (m : Model) (fuel : Nat) (whereDescr : List (String × FilterValue))
    (parentTable : String) (includeWhere : Bool) : Option SqlFragment :=
  (optionMapList (fun kv => m.generateWhereObject fuel kv.1 kv.2 parentTable) whereDescr).map
    fun fragments => whereAssemble fragments includeWhere

/-- A value of an include description (`IncludeOperator`): a boolean or a
sub-mapping of referenced-table column names to booleans. -/
inductive IncludeValue where
  | bool (b : Bool)
  | sub (fields : List (String × Bool))

/-- `generateSelect` (MockDatabase.ts lines 626-665).  A non-empty column
list compiles each column as ``sql`${identifier} ${...AS __ref__col...}` ``
joined by `", "`; an empty list compiles to `parentTable.*`; `RETURNING`
and a trailing comma are prepended/appended on demand. -/
def generateSelect (select : List String) (parentTable : String)
    (referenceColumnName : Option String) (includeReturning : Bool) (includeComma : Bool) :
    SqlFragment :=
  let columns :=
    if !select.isEmpty then
      joinByFragment
        (select.map fun column =>
          [createIdentifier column parentTable, SqlTok.kw " "] ++
            (match referenceColumnName with
             | some rc => [SqlTok.kw "AS ", SqlTok.ident ("__" ++ rc ++ "__" ++ column)]
             | none => []))
        [SqlTok.kw ", "]
    else [SqlTok.ident parentTable, SqlTok.kw ".*"]
  (if includeReturning then [SqlTok.kw "RETURNING"] else [])
    ++ [SqlTok.kw " "] ++ columns ++ (if includeComma then [SqlTok.kw ","] else [])

/-- Loop body of `generateInclude` (MockDatabase.ts lines 673-693): the
`findReference` assert is NOT caught here, so a non-reference key crashes;
every entry pushes a `JOIN` fragment; only a non-boolean value pushes an
aliased select fragment. -/
def includeEntry (m : Model) (kv : String × IncludeValue) :
    Option (SqlFragment × List SqlFragment) :=
  match m.findReference kv.1 m.tableName with
  | none => none
  | some (column, ref) =>
    let joinFragment : SqlFragment :=
      [SqlTok.kw "JOIN ", SqlTok.ident ref.tableName, SqlTok.kw " ON ",
       createIdentifier column.name m.tableName, SqlTok.kw " = ",
       createIdentifier ref.columnName ref.tableName]
    match kv.2 with
    | IncludeValue.bool _ => some (joinFragment, [])
    | IncludeValue.sub fields =>
      some (joinFragment,
        [generateSelect (fields.map Prod.fst) ref.tableName (some kv.1) false false])

/-- `generateInclude` (MockDatabase.ts lines 667-699): returns the list of
join fragments and the list of extra select fragments. -/
def Model.generateInclude (m : Model) (includeDescr : List (String × IncludeValue)) :
    Option (List SqlFragment × List SqlFragment) :=
  (optionMapList (includeEntry m) includeDescr).map
    fun pairs => (pairs.map Prod.fst, (pairs.map Prod.snd).flatten)

/-- A value of an order description (`OrderByOperator`): a string
(`"ASC"`/`"DESC"` intended) or a nested order description. -/
inductive OrderValue where
  | str (s : String)
  | nested (entries : List (String × OrderValue))

/-- JavaScript `Object.entries` as applied by `generateOrderByObject`:
entries of an object are its fields; entries of a string are its
index-keyed characters. -/
def jsEntries : OrderValue → List (String × OrderValue)
  | OrderValue.str s => s.data.enum.map fun p => (toString p.1, OrderValue.str (Char.toString p.2))
  | OrderValue.nested entries => entries

/-- JavaScript strict equality `order === "DESC"` / `order === "ASC"`
between an order value and a string literal. -/
def isOrderEq : OrderValue → String → Bool
  | OrderValue.str s, t => s == t
  | _, _ => false

/-- `generateOrderByObject` (MockDatabase.ts lines 781-817): for each
entry push the identifier to the `DESC`/`ASC` group, and — independently —
recurse when `findReference(columnName)` succeeds.  NB the source calls
`findReference` without a parent-table argument, so the lookup always uses
`this.tableName`, even inside a recursive call. -/
def generateOrderByObject (m : Model) : Nat → OrderValue → String →
    Option (List SqlFragment × List SqlFragment)
  | 0, _, _ => none
  | Nat.succ fuel, orderBy, parentTable =>
    (optionMapList
      (fun kv =>
        let ownAsc : List SqlFragment :=
          if isOrderEq kv.2 "ASC" then [[createIdentifier kv.1 parentTable]] else []
        let ownDesc : List SqlFragment :=
          if isOrderEq kv.2 "DESC" then [[createIdentifier kv.1 parentTable]] else []
        match m.findReference kv.1 m.tableName with
        | some (_, ref) =>
          (generateOrderByObject m fuel kv.2 ref.tableName).map
            fun p => (ownAsc ++ p.1, ownDesc ++ p.2)
        | none => some (ownAsc, ownDesc))
      (jsEntries orderBy)).map
      fun pairs => ((pairs.map Prod.fst).flatten, (pairs.map Prod.snd).flatten)

/-- `generateOrderBy` (MockDatabase.ts lines 819-850): nothing when both
groups are empty, otherwise `ORDER BY` followed by the comma-joined
ascending group with `ASC` (plus a separating comma when a descending
group follows) and the comma-joined descending group with `DESC`. -/
def Model.generateOrderBy (m : Model) (fuel : Nat) (orderBy : List (String × OrderValue)) :
    Option SqlFragment :=
  (generateOrderByObject m fuel (OrderValue.nested orderBy) m.tableName).map fun p =>
    let hasAsc := !p.1.isEmpty
    let hasDesc := !p.2.isEmpty
    if !hasAsc && !hasDesc then []
    else
      [SqlTok.kw " ORDER BY "] ++
        (if hasAsc then
          joinByFragment p.1 [SqlTok.kw ", "] ++ [SqlTok.kw " ASC"] ++
            (if hasDesc then [SqlTok.kw ", "] else [])
        else []) ++
        [SqlTok.kw " "] ++
        (if hasDesc then joinByFragment p.2 [SqlTok.kw ", "] ++ [SqlTok.kw " DESC"] else []) ++
        [SqlTok.kw " "]

/-- The statement compiled by `findMany` (MockDatabase.ts lines 540-551):
`SELECT <select> <includeSelects> FROM <table> <joins> <where> <limit>
<orderBy>`.  `limit` is emitted only when truthy (so not for `0`). -/
def Model.findManyStatement (m : Model) (fuel : Nat) (select : List String)
    (includeDescr : List (String × IncludeValue)) (whereDescr : List (String × FilterValue))
    (orderBy : List (String × OrderValue)) (limit : Option Nat) : Option SqlFragment :=
  match m.generateInclude includeDescr with
  | none => none
  | some (joinFragment, includeSelectFragment) =>
    match m.generateWhere fuel whereDescr m.tableName true with
    | none => none
    | some whereToks =>
      match m.generateOrderBy fuel orderBy with
      | none => none
      | some orderToks =>
        some ([SqlTok.kw " SELECT "]
          ++ generateSelect select m.tableName none false (!includeSelectFragment.isEmpty)
          ++ [SqlTok.kw " "] ++ includeSelectFragment.flatten
          ++ [SqlTok.kw " FROM ", SqlTok.ident m.tableName, SqlTok.kw " "]
          ++ joinFragment.flatten
          ++ [SqlTok.kw " "] ++ whereToks ++ [SqlTok.kw " "]
          ++ (match limit with
              | some n => if n ≠ 0 then [SqlTok.kw "LIMIT ", SqlTok.val (toString n)] else []
              | none => [])
          ++ [SqlTok.kw " "] ++ orderToks ++ [SqlTok.kw " "])

/-- `find` (MockDatabase.ts line 509) delegates to `findMany` with
`{...args, limit: 1}`; `findMany` then defaults `orderBy` to `{}`. -/
def Model.findStatement (m : Model) (fuel : Nat) (select : List String)
    (includeDescr : List (String × IncludeValue)) (whereDescr : List (String × FilterValue)) :
    Option SqlFragment :=
  m.findManyStatement fuel select includeDescr whereDescr [] (some 1)

/-- One iteration of the `formatRow` loop (MockDatabase.ts lines 949-966):
an alias-marked key is removed, split on `"__"` (trimmed, empties
dropped), and its value merged into the nested object under the reference
column name; other keys leave the row untouched.  The `typeof ... ===
"object"` spread keeps the fields of an existing object (or array, index
keyed; `null` spreads to nothing) and otherwise starts from `{}`. -/
def formatRowStep (row : Obj) (key : String) : Obj :=
  if startsWithDunder key then
    let cachedValue := jsGetD row key
    let row1 := jsDelete row key
    let parts := ((jsSplitOnDunder key).map jsTrim).filter fun s => decide (0 < s.length)
    let referenceColumnName := (parts[0]?).getD "undefined"
    let subKey := (parts[1]?).getD "undefined"
    let base : Obj :=
      match jsGetD row1 referenceColumnName with
      | JsValue.obj fields => fields
      | JsValue.arr elements => elements.enum.map fun p => (toString p.1, p.2)
      | _ => []
    jsSet row1 referenceColumnName (JsValue.obj (jsSet base subKey cachedValue))
  else row

/-- `formatRow` (MockDatabase.ts lines 946-968): iterate over a snapshot
of the keys (`Object.keys(row)` taken before the loop), applying the step
above. In this pure rendering the defensive copy `{...rowSource}` is the
identity; the heap rendering `formatRowHeap` below models it explicitly. -/
def formatRow (rowSource : Obj) : Obj :=
  (rowSource.map Prod.fst).foldl formatRowStep rowSource

/-- `findMany`'s post-processing (MockDatabase.ts lines 553-564): reshape
every row returned by the executor. -/
def findManyResult (rows : List Obj) : List Obj :=
  rows.map formatRow

/-- `find`'s post-processing (MockDatabase.ts line 510):
`data.length === 1 ? data[0] : null`, with `data` the reshaped rows. -/
def findResult (rows : List Obj) : Option Obj :=
  let data := findManyResult rows
  if data.length = 1 then data[0]? else none

/-- `create`'s row-count contract (MockDatabase.ts lines 584-585):
`assert(rows.length === 1, ...)` then return `rows[0]` (no reshaping).
`Except.error` with the assert message models the thrown error. -/
def createResult (rows : List Obj) : Except String Obj :=
  if h : rows.length = 1 then Except.ok (rows.get ⟨0, by omega⟩)
  else Except.error "expected to create a single row"

/-- `update`'s row-count contract (MockDatabase.ts lines 607-608),
identical to `create`'s up to the assert message. -/
def updateResult (rows : List Obj) : Except String Obj :=
  if h : rows.length = 1 then Except.ok (rows.get ⟨0, by omega⟩)
  else Except.error "expected to update a single row"

/-- JavaScript `Array.prototype.join`, used by the legacy string-based
WHERE compiler. -/
def jsJoin (sep : String) : List String → String
  | [] => ""
  | [s] => s
  | s :: rest => s ++ sep ++ jsJoin sep rest

/-- One map-callback of the legacy `generateWhere` in
`src/database/Model.ts` (lines 149-188).  The outer `Option` models the
crash on an empty operator object; the inner `Option` is the callback's
JavaScript return value, `none` being the bare `return;` (undefined) taken
for an `undefined` filter value. -/
def legacyWhereClause (parentTable : String) (key : String) (operators : FilterValue) :
    Option (Option String) :=
  let selector := parentTable ++ "." ++ key
  match operators with
  | FilterValue.undef => some none
  | FilterValue.null => some (some (selector ++ " IS NULL"))
  | FilterValue.obj entries =>
    match entries with
    | [] => none
    | (operator, targetValue) :: _ =>
      match operator with
      | "eq" =>
        match targetValue with
        | FilterValue.null => some (some (selector ++ " IS NULL"))
        | _ => some (some (selector ++ " = '" ++ targetValue.jsString ++ "'"))
      | "neq" =>
        match targetValue with
        | FilterValue.null => some (some (selector ++ " IS NOT NULL"))
        | _ => some (some (selector ++ " != '" ++ targetValue.jsString ++ "'"))
      | "contains" => some (some (selector ++ " LIKE '%" ++ targetValue.jsString ++ "%'"))
      | "startsWith" => some (some (selector ++ " LIKE '" ++ targetValue.jsString ++ "%'"))
      | "endsWith" => some (some (selector ++ " LIKE '%" ++ targetValue.jsString ++ "'"))
      | "gt" => some (some (selector ++ " > " ++ targetValue.jsString))
      | "lt" => some (some (selector ++ " < " ++ targetValue.jsString))
      | "gte" => some (some (selector ++ " >= " ++ targetValue.jsString))
      -- source line 183: the legacy lte branch also emits ">="
      | "lte" => some (some (selector ++ " >= " ++ targetValue.jsString))
      | _ => some (some (selector ++ " = '" ++ FilterValue.jsString operators ++ "'"))
  | FilterValue.scalar display => some (some (selector ++ " = '" ++ display ++ "'"))

/-- The legacy `generateWhere` of `src/database/Model.ts` (lines 140-190):
unconditional `WHERE ` prefix; the map results are joined with `" AND "`,
`undefined` entries contributing an empty string (JavaScript `join`). -/
def legacyGenerateWhere (tableName : String) (whereDescr : List (String × FilterValue)) :
    Option String :=
  (optionMapList (fun kv => legacyWhereClause tableName kv.1 kv.2) whereDescr).map
    fun clauses => "WHERE " ++ jsJoin " AND " (clauses.map fun c => c.getD "")

/-- A JavaScript heap of row objects: addressed objects plus the next
fresh address.  Used to state the frame property of `formatRow`. -/
structure JsHeap where
  objects : List (Nat × Obj)
  nextAddr : Nat

/-- Heap lookup. -/
def JsHeap.get (h : JsHeap) (addr : Nat) : Option Obj :=
  (h.objects.find? fun p => p.1 == addr).map Prod.snd

/-- In-place update of an existing object. -/
def JsHeap.set (h : JsHeap) (addr : Nat) (o : Obj) : JsHeap :=
  ⟨h.objects.map fun p => if p.1 == addr then (addr, o) else p, h.nextAddr⟩

/-- Allocation of a fresh object, returning its address. -/
def JsHeap.alloc (h : JsHeap) (o : Obj) : JsHeap × Nat :=
  (⟨h.objects ++ [(h.nextAddr, o)], h.nextAddr + 1⟩, h.nextAddr)

/-- Heap well-formedness: every allocated address is below `nextAddr`. -/
def JsHeap.wf (h : JsHeap) : Prop :=
  ∀ p ∈ h.objects, p.1 < h.nextAddr

/-- `formatRow` rendered against the heap (MockDatabase.ts lines 946-968):
`const row = { ...rowSource }` allocates a fresh copy, and every mutation
of the loop (`delete row[key]`, `row[referenceColumnName] = ...`) targets
only that copy, here rendered as in-place updates of the fresh address by
the per-key step function. -/
def formatRowHeap (h : JsHeap) (src : Nat) : JsHeap × Nat :=
  let rowSource := (h.get src).getD []
  let alloced := h.alloc rowSource
  let keys := rowSource.map Prod.fst
  let finalHeap :=
    keys.foldl (fun hh key => hh.set alloced.2 (formatRowStep ((hh.get alloced.2).getD []) key))
      alloced.1
  (finalHeap, alloced.2)

/-- The `avatar` table of the repository's own example schema
(`src/database/Model.ts` lines 17-21). -/
def avatarTable : MockTable :=
  ⟨"avatar",
    [mkColumn "id" "SERIAL" none, mkColumn "src" "TEXT" none, mkColumn "alt" "TEXT" none]⟩

/-- The `user_` table of the repository's own example schema
(`src/database/Model.ts` lines 5-16, table name line 263): `avatar_id`
references `avatar.id`. -/
def userTable : MockTable :=
  ⟨"user_",
    [mkColumn "id" "SERIAL" none, mkColumn "username" "TEXT" none,
     mkColumn "password" "TEXT" none, mkColumn "name" "TEXT" none,
     mkColumn "avatar_id" "INTEGER" (some ⟨"avatar", "id"⟩)]⟩

/-- Registry holding the example schema. -/
def sampleDatabase : MockDatabase := ⟨[userTable, avatarTable]⟩

/-- The `user_` model over the example schema. -/
def sampleModel : Model := ⟨"user_", sampleDatabase⟩

/-- Minimal schema for the round-trip claim: table `t` with reference
column `r` pointing at table `s` column `c`. -/
def roundtripModel : Model :=
  ⟨"t", ⟨[⟨"t", [mkColumn "a" "TEXT" none, mkColumn "r" "INTEGER" (some ⟨"s", "c"⟩)]⟩,
          ⟨"s", [mkColumn "c" "TEXT" none]⟩]⟩⟩

/-- Concrete one-object heap used to witness the frame property. -/
def sampleHeap : JsHeap := ⟨[(0, [("a", JsValue.num 1)])], 1⟩

/-- The ORDER BY shape described by the spec, stated on the two compiled
fragment groups: nothing when neither group has entries; `ORDER BY
<asc-list> ASC` when ascending entries exist, with `, <desc-list> DESC`
appended when descending entries also exist; `ORDER BY <desc-list> DESC`
alone when only descending entries exist.  (The extra space tokens are the
remnants of the source's multi-line template literal.) -/
def orderByClaimFragment (ascFragment descFragment : List SqlFragment) : SqlFragment :=
  if ascFragment.isEmpty && descFragment.isEmpty then []
  else if descFragment.isEmpty then
    [SqlTok.kw " ORDER BY "] ++ joinByFragment ascFragment [SqlTok.kw ", "] ++
      [SqlTok.kw " ASC", SqlTok.kw " ", SqlTok.kw " "]
  else if ascFragment.isEmpty then
    [SqlTok.kw " ORDER BY ", SqlTok.kw " "] ++ joinByFragment descFragment [SqlTok.kw ", "] ++
      [SqlTok.kw " DESC", SqlTok.kw " "]
  else
    [SqlTok.kw " ORDER BY "] ++ joinByFragment ascFragment [SqlTok.kw ", "] ++
      [SqlTok.kw " ASC", SqlTok.kw ", ", SqlTok.kw " "] ++
      joinByFragment descFragment [SqlTok.kw ", "] ++ [SqlTok.kw " DESC", SqlTok.kw " "]

/-- Successful `optionMapList` preserves length. -/
theorem optionMapList_length {α β : Type _} (f : α → Option β) :
    ∀ (l : List α) (bs : List β), optionMapList f l = some bs → bs.length = l.length := by
  intro l
  induction l with
  | nil =>
    intro bs h
    simp [optionMapList] at h
    simp [← h]
  | cons a rest ih =>
    intro bs h
    unfold optionMapList at h
    cases hfa : f a with
    | none => rw [hfa] at h; exact absurd h (by simp)
    | some b =>
      rw [hfa] at h
      cases hrest : optionMapList f rest with
      | none => rw [hrest] at h; exact absurd h (by simp)
      | some tail =>
        rw [hrest] at h
        simp only [Option.some.injEq] at h
        subst h
        simp [ih tail hrest]

/-- Every element produced by a successful `optionMapList` comes from some
input element. -/
theorem optionMapList_mem_some {α β : Type _} (f : α → Option β) :
    ∀ (l : List α) (bs : List β), optionMapList f l = some bs →
      ∀ b ∈ bs, ∃ a ∈ l, f a = some b := by
  intro l
  induction l with
  | nil =>
    intro bs h b hb
    simp [optionMapList] at h
    subst h
    simp at hb
  | cons a rest ih =>
    intro bs h b hb
    unfold optionMapList at h
    cases hfa : f a with
    | none => rw [hfa] at h; exact absurd h (by simp)
    | some b0 =>
      rw [hfa] at h
      cases hrest : optionMapList f rest with
      | none => rw [hrest] at h; exact absurd h (by simp)
      | some tail =>
        rw [hrest] at h
        simp only [Option.some.injEq] at h
        subst h
        rcases List.mem_cons.mp hb with hb0 | htail
        · exact ⟨a, List.mem_cons_self a rest, hb0 ▸ hfa⟩
        · obtain ⟨a2, ha2, hfa2⟩ := ih tail hrest b htail
          exact ⟨a2, List.mem_cons_of_mem a ha2, hfa2⟩

/-- A token absent from every fragment and from the separator is absent
from their join. -/
theorem notMem_joinByFragment {t : SqlTok} :
    ∀ (fragments : List SqlFragment) (sep : SqlFragment),
      (∀ f ∈ fragments, t ∉ f) → t ∉ sep → t ∉ joinByFragment fragments sep := by
  intro fragments
  induction fragments with
  | nil => intro sep _ _; simp [joinByFragment]
  | cons f rest ih =>
    intro sep hf hs
    unfold joinByFragment
    intro hmem
    rcases List.mem_append.mp hmem with h12 | h3
    · rcases List.mem_append.mp h12 with h1 | h2
      · exact hf f (List.mem_cons_self f rest) h1
      · revert h2; split
        · simp
        · exact hs
    · exact ih sep (fun g hg => hf g (List.mem_cons_of_mem f hg)) hs h3

/-- The select compiler never emits a `WHERE` keyword token. -/
theorem whereTok_notMem_generateSelect (select : List String) (parentTable : String)
    (rc : Option String) (ret com : Bool) :
    SqlTok.kw "WHERE" ∉ generateSelect select parentTable rc ret com := by
  unfold generateSelect
  intro hmem
  rcases List.mem_append.mp hmem with h123 | h4
  · rcases List.mem_append.mp h123 with h12 | h3
    · rcases List.mem_append.mp h12 with h1 | h2
      · revert h1; split <;> simp
      · simp at h2
    · revert h3
      split
      · apply notMem_joinByFragment
        · intro f hf
          obtain ⟨column, _, rfl⟩ := List.mem_map.mp hf
          cases rc <;> simp [createIdentifier]
        · simp
      · simp
  · revert h4; split <;> simp

/-- The per-key WHERE compiler never emits a `WHERE` keyword token: its
recursive sub-compiles always pass `includeWhere: false`. -/
theorem whereTok_notMem_generateWhereObject :
    ∀ (fuel : Nat) (m : Model) (key : String) (v : FilterValue) (pt : String) (fr : SqlFragment),
      m.generateWhereObject fuel key v pt = some fr → SqlTok.kw "WHERE" ∉ fr := by
  intro fuel
  induction fuel with
  | zero =>
    intro m key v pt fr h
    simp [Model.generateWhereObject] at h
  | succ fuel ih =>
    intro m key v pt fr h
    cases v with
    | undef =>
      simp only [Model.generateWhereObject, Option.some.injEq] at h
      subst h
      simp [createIdentifier]
    | null =>
      simp only [Model.generateWhereObject, Option.some.injEq] at h
      subst h
      simp [createIdentifier]
    | scalar s =>
      simp only [Model.generateWhereObject, Option.some.injEq] at h
      subst h
      simp [createIdentifier]
    | obj entries =>
      cases href : m.findReference key pt with
      | some colref =>
        obtain ⟨col, ref⟩ := colref
        simp only [Model.generateWhereObject, href] at h
        obtain ⟨fragments, hmap, rfl⟩ := Option.map_eq_some'.mp h
        have hjoin : SqlTok.kw "WHERE" ∉ joinByFragment fragments [SqlTok.kw " AND "] := by
          apply notMem_joinByFragment
          · intro f hf
            obtain ⟨kv, _, heq⟩ := optionMapList_mem_some _ _ _ hmap f hf
            exact ih m kv.1 kv.2 ref.tableName f heq
          · simp
        simp [whereAssemble, List.mem_append, hjoin]
      | none =>
        cases entries with
        | nil =>
          simp [Model.generateWhereObject, href] at h
        | cons e rest =>
          obtain ⟨operator, targetValue⟩ := e
          simp only [Model.generateWhereObject, href] at h
          split at h <;> try split at h
          all_goals simp only [Option.some.injEq] at h
          all_goals subst h
          all_goals simp [createIdentifier]

/-- A successful top-level WHERE compilation of a non-empty filter
description contains exactly one `WHERE` keyword token. -/
theorem countWhereTok_generateWhere (m : Model) (fuel : Nat)
    (whereDescr : List (String × FilterValue)) (pt : String) (fr : SqlFragment)
    (h : m.generateWhere fuel whereDescr pt true = some fr) (hne : whereDescr ≠ []) :
    countWhereTok fr = 1 := by
  unfold Model.generateWhere at h
  obtain ⟨fragments, hmap, rfl⟩ := Option.map_eq_some'.mp h
  have hjoin : SqlTok.kw "WHERE" ∉ joinByFragment fragments [SqlTok.kw " AND "] := by
    apply notMem_joinByFragment
    · intro f hf
      obtain ⟨kv, _, heq⟩ := optionMapList_mem_some _ _ _ hmap f hf
      exact whereTok_notMem_generateWhereObject fuel m kv.1 kv.2 pt f heq
    · simp
  have hlen := optionMapList_length _ _ _ hmap
  have hfe : fragments.isEmpty = false := by
    cases fragments with
    | nil =>
      exfalso
      apply hne
      cases whereDescr with
      | nil => rfl
      | cons _ _ => simp at hlen
    | cons _ _ => rfl
  unfold whereAssemble
  rw [hfe]
  simp [countWhereTok, List.count_append, List.count_eq_zero.mpr hjoin]

/-- An empty-filter WHERE compilation never contains a `WHERE` token. -/
theorem countWhereTok_generateWhere_nil (m : Model) (fuel : Nat) (pt : String)
    (fr : SqlFragment) (h : m.generateWhere fuel [] pt true = some fr) :
    countWhereTok fr = 0 := by
  simp only [Model.generateWhere, optionMapList, Option.map_some', Option.some.injEq] at h
  subst h
  simp [whereAssemble, joinByFragment, countWhereTok]

/-- One include entry never contributes a `WHERE` keyword token, neither
in its join fragment nor in its select fragments. -/
theorem whereTok_notMem_includeEntry (m : Model) (kv : String × IncludeValue)
    (pair : SqlFragment × List SqlFragment) (h : includeEntry m kv = some pair) :
    SqlTok.kw "WHERE" ∉ pair.1 ∧ ∀ f ∈ pair.2, SqlTok.kw "WHERE" ∉ f := by
  unfold includeEntry at h
  split at h
  · exact absurd h (by simp)
  · split at h
    · simp only [Option.some.injEq] at h
      subst h
      constructor
      · simp [createIdentifier]
      · simp
    · simp only [Option.some.injEq] at h
      subst h
      constructor
      · simp [createIdentifier]
      · intro f hf
        simp only [List.mem_singleton] at hf
        subst hf
        apply whereTok_notMem_generateSelect

/-- The relation resolver never emits a `WHERE` keyword token, neither in
the join fragments nor in the extra select fragments. -/
theorem whereTok_notMem_generateInclude (m : Model)
    (includeDescr : List (String × IncludeValue)) (jf sf : List SqlFragment)
    (h : m.generateInclude includeDescr = some (jf, sf)) :
    SqlTok.kw "WHERE" ∉ jf.flatten ∧ SqlTok.kw "WHERE" ∉ sf.flatten := by
  unfold Model.generateInclude at h
  obtain ⟨pairs, hmap, hpair⟩ := Option.map_eq_some'.mp h
  simp only [Prod.mk.injEq] at hpair
  obtain ⟨hjf, hsf⟩ := hpair
  constructor
  · subst hjf
    intro hmem
    obtain ⟨f, hfmem, hok⟩ := List.mem_flatten.mp hmem
    obtain ⟨pair, hpmem, rfl⟩ := List.mem_map.mp hfmem
    obtain ⟨kv, _, heq⟩ := optionMapList_mem_some _ _ _ hmap pair hpmem
    exact (whereTok_notMem_includeEntry m kv pair heq).1 hok
  · subst hsf
    intro hmem
    obtain ⟨f, hfmem, hok⟩ := List.mem_flatten.mp hmem
    obtain ⟨fs, hfsmem, hffs⟩ := List.mem_flatten.mp hfmem
    obtain ⟨pair, hpmem, rfl⟩ := List.mem_map.mp hfsmem
    obtain ⟨kv, _, heq⟩ := optionMapList_mem_some _ _ _ hmap pair hpmem
    exact (whereTok_notMem_includeEntry m kv pair heq).2 f hffs hok

/-- A fragment taken from an own-column order group is a single
identifier, so it never contains a `WHERE` keyword token. -/
theorem whereTok_notMem_ownGroup (cond : Bool) (key pt : String) (f : SqlFragment)
    (hf : f ∈ (if cond then [[createIdentifier key pt]] else ([] : List SqlFragment))) :
    SqlTok.kw "WHERE" ∉ f := by
  cases cond with
  | true =>
    simp only [if_pos, List.mem_singleton] at hf
    subst hf
    simp [createIdentifier]
  | false => simp at hf

/-- The order-group compiler never emits a `WHERE` keyword token in
either group. -/
theorem whereTok_notMem_generateOrderByObject :
    ∀ (fuel : Nat) (m : Model) (ov : OrderValue) (pt : String)
      (p : List SqlFragment × List SqlFragment),
      generateOrderByObject m fuel ov pt = some p →
      (∀ f ∈ p.1, SqlTok.kw "WHERE" ∉ f) ∧ (∀ f ∈ p.2, SqlTok.kw "WHERE" ∉ f) := by
  intro fuel
  induction fuel with
  | zero =>
    intro m ov pt p h
    simp [generateOrderByObject] at h
  | succ fuel ih =>
    intro m ov pt p h
    unfold generateOrderByObject at h
    obtain ⟨pairs, hmap, rfl⟩ := Option.map_eq_some'.mp h
    have hpair : ∀ pair ∈ pairs,
        (∀ f ∈ pair.1, SqlTok.kw "WHERE" ∉ f) ∧ (∀ f ∈ pair.2, SqlTok.kw "WHERE" ∉ f) := by
      intro pair hpmem
      obtain ⟨kv, _, heq⟩ := optionMapList_mem_some _ _ _ hmap pair hpmem
      simp only at heq
      split at heq
      · obtain ⟨q, hq, hqeq⟩ := Option.map_eq_some'.mp heq
        subst hqeq
        constructor
        · intro f hf
          rcases List.mem_append.mp hf with hown | hrec
          · exact whereTok_notMem_ownGroup _ _ _ f hown
          · exact (ih m kv.2 _ q hq).1 f hrec
        · intro f hf
          rcases List.mem_append.mp hf with hown | hrec
          · exact whereTok_notMem_ownGroup _ _ _ f hown
          · exact (ih m kv.2 _ q hq).2 f hrec
      · simp only [Option.some.injEq] at heq
        subst heq
        constructor
        · intro f hf
          exact whereTok_notMem_ownGroup _ _ _ f hf
        · intro f hf
          exact whereTok_notMem_ownGroup _ _ _ f hf
    constructor
    · intro f hf
      obtain ⟨fs, hfsmem, hffs⟩ := List.mem_flatten.mp hf
      obtain ⟨pair, hpmem, rfl⟩ := List.mem_map.mp hfsmem
      exact (hpair pair hpmem).1 f hffs
    · intro f hf
      obtain ⟨fs, hfsmem, hffs⟩ := List.mem_flatten.mp hf
      obtain ⟨pair, hpmem, rfl⟩ := List.mem_map.mp hfsmem
      exact (hpair pair hpmem).2 f hffs

/-- The assembled ORDER BY fragment never contains a `WHERE` keyword
token. -/
theorem whereTok_notMem_generateOrderBy (m : Model) (fuel : Nat)
    (orderBy : List (String × OrderValue)) (toks : SqlFragment)
    (h : m.generateOrderBy fuel orderBy = some toks) :
    SqlTok.kw "WHERE" ∉ toks := by
  unfold Model.generateOrderBy at h
  obtain ⟨p, hp, rfl⟩ := Option.map_eq_some'.mp h
  have hg := whereTok_notMem_generateOrderByObject fuel m _ _ p hp
  have hj1 : SqlTok.kw "WHERE" ∉ joinByFragment p.1 [SqlTok.kw ", "] :=
    notMem_joinByFragment _ _ hg.1 (by simp)
  have hj2 : SqlTok.kw "WHERE" ∉ joinByFragment p.2 [SqlTok.kw ", "] :=
    notMem_joinByFragment _ _ hg.2 (by simp)
  simp only []
  split
  · simp
  · intro hmem
    rcases List.mem_append.mp hmem with h1234 | h5
    · rcases List.mem_append.mp h1234 with h123 | h4
      · rcases List.mem_append.mp h123 with h12 | h3
        · rcases List.mem_append.mp h12 with h1 | h2
          · simp at h1
          · revert h2
            split
            · intro h2
              rcases List.mem_append.mp h2 with h2a | h2b
              · rcases List.mem_append.mp h2a with h2c | h2d
                · exact hj1 h2c
                · simp at h2d
              · revert h2b; split <;> simp
            · simp
        · simp at h3
      · revert h4
        split
        · intro h4
          rcases List.mem_append.mp h4 with h4a | h4b
          · exact hj2 h4a
          · simp at h4b
        · simp
    · simp at h5

/-- Claim C4 (amended): for every non-empty filter description — in
particular those with relationship keys, whose nested filters are compiled
recursively with the `WHERE` keyword omitted — a successfully compiled
`findMany` statement contains exactly one `WHERE` token, regardless of
nesting depth and of the select/include/orderBy/limit arguments. -/
theorem spec_c4 :
    ∀ (m : Model) (fuel : Nat) (select : List String)
      (includeDescr : List (String × IncludeValue)) (whereDescr : List (String × FilterValue))
      (orderBy : List (String × OrderValue)) (limit : Option Nat) (stmt : SqlFragment),
      whereDescr ≠ [] →
      m.findManyStatement fuel select includeDescr whereDescr orderBy limit = some stmt →
      countWhereTok stmt = 1 := by
  intro m fuel select inc w ob lim stmt hne h
  unfold Model.findManyStatement at h
  cases hinc : m.generateInclude inc with
  | none => rw [hinc] at h; simp at h
  | some pr =>
    obtain ⟨jf, isf⟩ := pr
    rw [hinc] at h
    cases hwh : m.generateWhere fuel w m.tableName true with
    | none => rw [hwh] at h; simp at h
    | some wt =>
      rw [hwh] at h
      cases hob : m.generateOrderBy fuel ob with
      | none => rw [hob] at h; simp at h
      | some ot =>
        rw [hob] at h
        simp only [Option.some.injEq] at h
        subst h
        have hwc := countWhereTok_generateWhere m fuel w m.tableName wt hwh hne
        have hic := whereTok_notMem_generateInclude m inc jf isf hinc
        have hoc := whereTok_notMem_generateOrderBy m fuel ob ot hob
        have hsc := whereTok_notMem_generateSelect select m.tableName none false (!isf.isEmpty)
        have hlimc : List.count (SqlTok.kw "WHERE")
            (match lim with
             | some n => if n ≠ 0 then [SqlTok.kw "LIMIT ", SqlTok.val (toString n)] else []
             | none => ([] : SqlFragment)) = 0 := by
          cases lim with
          | none => rfl
          | some n =>
            by_cases hn : n = 0
            · simp [hn]
            · apply List.count_eq_zero.mpr
              simp [hn]
        simp only [countWhereTok] at hwc
        simp only [countWhereTok, List.count_append]
        rw [hwc, List.count_eq_zero.mpr hic.1, List.count_eq_zero.mpr hic.2,
          List.count_eq_zero.mpr hoc, List.count_eq_zero.mpr hsc, hlimc,
          List.count_eq_zero.mpr (show SqlTok.kw "WHERE" ∉ [SqlTok.kw " SELECT "] by simp),
          List.count_eq_zero.mpr
            (show SqlTok.kw "WHERE" ∉
              [SqlTok.kw " FROM ", SqlTok.ident m.tableName, SqlTok.kw " "] by simp),
          List.count_eq_zero.mpr (show SqlTok.kw "WHERE" ∉ [SqlTok.kw " "] by simp)]

/-- Claim C4, counterexample to the statement as frozen: for the empty
filter description the compiled `findMany` statement contains zero `WHERE`
tokens, not one. -/
theorem spec_c4_counterexample :
    (Model.findManyStatement sampleModel 3 [] [] [] [] none).map countWhereTok = some 0 := rfl

/-- Claim C4, witness: a concrete nested filter (`avatar_id` is a
relationship column of `user_`) compiles with exactly one `WHERE` token. -/
theorem spec_c4_witness :
    countWhereTok ((Model.findManyStatement sampleModel 5 [] []
        [("avatar_id", FilterValue.obj [("id", FilterValue.scalar "2")])] [] (some 1)).getD [])
      = 1 :=
  spec_c4 sampleModel 5 [] [] [("avatar_id", FilterValue.obj [("id", FilterValue.scalar "2")])]
    [] (some 1) _ (by simp) rfl

/-- Claim C7: the compiled ORDER BY fragment has exactly the shape the
spec describes — `ORDER BY <asc-list> ASC` when ascending entries exist,
with `, <desc-list> DESC` appended when descending entries also exist,
`ORDER BY <desc-list> DESC` alone when only descending entries exist, and
nothing at all when neither exists (`orderByClaimFragment`). -/
theorem spec_c7 :
    ∀ (m : Model) (fuel : Nat) (orderBy : List (String × OrderValue))
      (ascFragment descFragment : List SqlFragment),
      generateOrderByObject m fuel (OrderValue.nested orderBy) m.tableName =
        some (ascFragment, descFragment) →
      m.generateOrderBy fuel orderBy = some (orderByClaimFragment ascFragment descFragment) := by
  intro m fuel ob asc desc h
  unfold Model.generateOrderBy
  rw [h, Option.map_some']
  congr 1
  unfold orderByClaimFragment
  cases hA : asc.isEmpty <;> cases hD : desc.isEmpty <;>
    simp [hA, hD, List.append_assoc]

/-- Claim C7, witness: one ascending and one descending own-column entry
produce `ORDER BY user_.username ASC, user_.id DESC` (up to the template
literal's whitespace). -/
theorem spec_c7_witness :
    Model.generateOrderBy sampleModel 2 [("username", OrderValue.str "ASC"), ("id", OrderValue.str "DESC")] =
      some (orderByClaimFragment [[SqlTok.ident "user_.username"]] [[SqlTok.ident "user_.id"]]) :=
  spec_c7 sampleModel 2 _ _ _ rfl

/-- Claim C1, evaluated at the failing input: for the numeric operator
object `{ lte: 5 }` both WHERE-compiler variants emit the comparison
`>=` against the raw value — `user_.id >= 5` — not the `<=` the claim
(and the spec's stated intent) requires. -/
theorem spec_c1 :
    (Model.generateWhere sampleModel 2 [("id", FilterValue.obj [("lte", FilterValue.scalar "5")])]
        "user_" true).map flattenSql = some "WHERE user_.id >= 5" ∧
    legacyGenerateWhere "user_" [("id", FilterValue.obj [("lte", FilterValue.scalar "5")])] =
      some "WHERE user_.id >= 5" :=
  ⟨rfl, rfl⟩

/-- Claim C2, evaluated at the failing input: for the include description
`{ avatar_id: true }` the relation resolver produces one JOIN fragment and
zero select fragments, although the referenced `avatar` table has three
columns — so no select fragment covers any column of the referenced
table. -/
theorem spec_c2 :
    (Model.generateInclude sampleModel [("avatar_id", IncludeValue.bool true)]).map
        (fun p => (p.1.length, p.2)) = some (1, []) ∧
    (sampleDatabase.getTable "avatar").map (fun t => t.columns.length) = some 3 :=
  ⟨rfl, rfl⟩

/-- Claim C3, evaluated at the failing input: the MockDatabase-variant
WHERE compiler does not skip a key whose value is `undefined` — it falls
through to the catch-all and emits the clause `user_.name = undefined`.
The legacy variant (database/Model.ts) does skip the pair — no clause is
produced for `name` — but its `join` still leaves the dangling `AND `
separator. -/
theorem spec_c3 :
    (Model.generateWhere sampleModel 2 [("name", FilterValue.undef)] "user_" true).map flattenSql =
      some "WHERE user_.name = undefined" ∧
    legacyGenerateWhere "user_" [("username", FilterValue.scalar "bob"), ("name", FilterValue.undef)] =
      some "WHERE user_.username = 'bob' AND " :=
  ⟨rfl, rfl⟩

/-- Claim C5: `create` and `update` fail with the UnexpectedRowCount
condition (the `assert` on the row count) whenever the executor reports
zero or two-or-more rows, and return the sole row when exactly one comes
back. -/
theorem spec_c5 :
    ∀ rows : List Obj,
      (rows.length ≠ 1 →
        createResult rows = Except.error "expected to create a single row" ∧
        updateResult rows = Except.error "expected to update a single row") ∧
      (∀ r : Obj, rows = [r] →
        createResult rows = Except.ok r ∧ updateResult rows = Except.ok r) := by
  intro rows
  constructor
  · intro hne
    constructor <;> simp [createResult, updateResult, hne]
  · intro r hr
    subst hr
    constructor <;> rfl

/-- Claim C5, witness: zero rows make `create` fail with the
UnexpectedRowCount message, and a single row is returned by `update`. -/
theorem spec_c5_witness :
    createResult ([] : List Obj) = Except.error "expected to create a single row" ∧
    updateResult [[("id", JsValue.num 1)]] = Except.ok [("id", JsValue.num 1)] :=
  ⟨((spec_c5 []).1 (by simp)).1, ((spec_c5 [[("id", JsValue.num 1)]]).2 _ rfl).2⟩

/-- Claim C6: `find` delegates to `findMany` with limit 1 (its compiled
statement is the `findMany` statement with `limit = 1` and the default
empty order description); when exactly one row comes back it returns that
row reshaped, and otherwise — in particular on an empty result set — it
returns the null-result marker (`none`), never a failure. -/
theorem spec_c6 :
    (∀ (m : Model) (fuel : Nat) (select : List String)
        (includeDescr : List (String × IncludeValue)) (whereDescr : List (String × FilterValue)),
        Model.findStatement m fuel select includeDescr whereDescr =
          Model.findManyStatement m fuel select includeDescr whereDescr [] (some 1)) ∧
    (∀ (rows : List Obj) (r : Obj), rows = [r] → findResult rows = some (formatRow r)) ∧
    (∀ rows : List Obj, rows.length ≠ 1 → findResult rows = none) := by
  refine ⟨fun _ _ _ _ _ => rfl, ?_, ?_⟩
  · intro rows r hr
    subst hr
    rfl
  · intro rows hne
    simp [findResult, findManyResult, hne]

/-- Claim C6, witness: a singleton result set yields the reshaped row, the
empty result set yields the null-result marker. -/
theorem spec_c6_witness :
    findResult [[("a", JsValue.num 1)]] = some (formatRow [("a", JsValue.num 1)]) ∧
    findResult ([] : List Obj) = none :=
  ⟨spec_c6.2.1 _ _ rfl, spec_c6.2.2 [] (by simp)⟩

/-- Claim C8, round-trip between alias generation and reshaping: the
select fragments produced for the include `{ r: { c: true } }` contain the
alias identifier `__r__c`, and reshaping the flat row
`{ a: 1, __r__c: 2 }` yields `{ a: 1, r: { c: 2 } }`. -/
theorem spec_c8 :
    (Model.generateInclude roundtripModel [("r", IncludeValue.sub [("c", true)])]).map
        (fun p => (p.2.flatten).contains (SqlTok.ident "__r__c")) = some true ∧
    formatRow [("a", JsValue.num 1), ("__r__c", JsValue.num 2)] =
      [("a", JsValue.num 1), ("r", JsValue.obj [("c", JsValue.num 2)])] :=
  ⟨rfl, rfl⟩

/-- Every key of the snapshot leaving the row unchanged: folding the
`formatRow` step over keys that do not carry the alias marker is the
identity. -/
theorem foldl_formatRowStep_id :
    ∀ (keys : List String) (row : Obj),
      (∀ k ∈ keys, startsWithDunder k = false) →
      keys.foldl formatRowStep row = row := by
  intro keys
  induction keys with
  | nil => intro row _; rfl
  | cons k rest ih =>
    intro row h
    have hk : startsWithDunder k = false := h k (List.mem_cons_self k rest)
    have hstep : formatRowStep row k = row := by
      unfold formatRowStep
      rw [hk]
      rfl
    simp only [List.foldl_cons, hstep]
    exact ih row fun k2 hk2 => h k2 (List.mem_cons_of_mem k hk2)

/-- Claim C9: row reshaping is idempotent on rows without alias-marked
keys — for every row none of whose keys starts with the `__` marker (in
particular any already-reshaped row), `formatRow` returns it unchanged. -/
theorem spec_c9 :
    ∀ row : Obj, (∀ kv ∈ row, startsWithDunder kv.1 = false) → formatRow row = row := by
  intro row h
  unfold formatRow
  apply foldl_formatRowStep_id
  intro k hk
  obtain ⟨kv, hkv, rfl⟩ := List.mem_map.mp hk
  exact h kv hkv

/-- Claim C9, witness: an already-reshaped row is returned unchanged. -/
theorem spec_c9_witness :
    formatRow [("a", JsValue.num 1), ("r", JsValue.obj [("c", JsValue.num 2)])] =
      [("a", JsValue.num 1), ("r", JsValue.obj [("c", JsValue.num 2)])] :=
  spec_c9 _ (by decide)

/-- `find?` hits in the left part of an append. -/
theorem find?_append_of_some {α : Type _} (p : α → Bool) :
    ∀ (l1 l2 : List α) (b : α), l1.find? p = some b → (l1 ++ l2).find? p = some b := by
  intro l1
  induction l1 with
  | nil => intro l2 b hb; simp [List.find?] at hb
  | cons a rest ih =>
    intro l2 b hb
    cases hpa : p a with
    | true => simp [List.find?, hpa] at hb ⊢; exact hb
    | false => simp only [List.cons_append, List.find?, hpa] at hb ⊢; exact ih l2 b hb

/-- A successful heap lookup exposes the stored pair. -/
theorem JsHeap.get_mem (h : JsHeap) (a : Nat) (o : Obj) (hget : h.get a = some o) :
    ∃ p ∈ h.objects, p.1 = a ∧ p.2 = o := by
  unfold JsHeap.get at hget
  obtain ⟨q, hq, hqo⟩ := Option.map_eq_some'.mp hget
  refine ⟨q, List.mem_of_find?_eq_some hq, ?_, hqo⟩
  have := List.find?_some hq
  simpa using this

/-- Allocation preserves existing objects. -/
theorem JsHeap.get_alloc_pres (h : JsHeap) (a : Nat) (o x : Obj) (hget : h.get a = some o) :
    (JsHeap.mk (h.objects ++ [(h.nextAddr, x)]) (h.nextAddr + 1)).get a = some o := by
  unfold JsHeap.get at hget ⊢
  obtain ⟨q, hq, hqo⟩ := Option.map_eq_some'.mp hget
  rw [find?_append_of_some _ _ _ _ hq]
  simp [hqo]

/-- `find?` missing the left part of an append searches the right part. -/
theorem find?_append_of_none {α : Type _} (p : α → Bool) :
    ∀ (l1 l2 : List α), l1.find? p = none → (l1 ++ l2).find? p = l2.find? p := by
  intro l1
  induction l1 with
  | nil => intro l2 _; rfl
  | cons a rest ih =>
    intro l2 h
    cases hpa : p a with
    | true => simp [List.find?, hpa] at h
    | false => simp only [List.cons_append, List.find?, hpa] at h ⊢; exact ih l2 h

/-- Allocation stores the new object at the fresh address. -/
theorem JsHeap.get_alloc_fresh (h : JsHeap) (x : Obj) (hwf : JsHeap.wf h) :
    (JsHeap.mk (h.objects ++ [(h.nextAddr, x)]) (h.nextAddr + 1)).get h.nextAddr = some x := by
  have hnone : h.objects.find? (fun p => p.1 == h.nextAddr) = none := by
    apply List.find?_eq_none.mpr
    intro p hp
    have := hwf p hp
    simp only [beq_iff_eq]
    omega
  unfold JsHeap.get
  dsimp only
  rw [find?_append_of_none _ _ _ hnone]
  simp [List.find?]

/-- Updating one address leaves every other address unchanged. -/
theorem JsHeap.get_set_ne (h : JsHeap) (a b : Nat) (o : Obj) (hab : a ≠ b) :
    (h.set b o).get a = h.get a := by
  obtain ⟨objs, next⟩ := h
  simp only [JsHeap.set, JsHeap.get]
  induction objs with
  | nil => simp
  | cons p rest ih =>
    simp only [List.map_cons]
    cases hpb : (p.1 == b) with
    | true =>
      have hpb2 : p.1 = b := by simpa using hpb
      rw [if_pos rfl]
      rw [@List.find?_cons_of_neg _ (fun q => q.1 == a) (b, o) _ (by simp; omega)]
      rw [@List.find?_cons_of_neg _ (fun q => q.1 == a) p _ (by simp [hpb2]; omega)]
      exact ih
    | false =>
      rw [if_neg (by simp)]
      cases hpa : (p.1 == a) with
      | true =>
        rw [@List.find?_cons_of_pos _ (fun q => q.1 == a) p _ hpa,
          @List.find?_cons_of_pos _ (fun q => q.1 == a) p _ hpa]
      | false =>
        rw [@List.find?_cons_of_neg _ (fun q => q.1 == a) p _ (by simp [hpa]),
          @List.find?_cons_of_neg _ (fun q => q.1 == a) p _ (by simp [hpa])]
        exact ih

/-- Updating an existing address stores the new object there. -/
theorem JsHeap.get_set_self (h : JsHeap) (b : Nat) (o o0 : Obj) (hget : h.get b = some o0) :
    (h.set b o).get b = some o := by
  obtain ⟨objs, next⟩ := h
  simp only [JsHeap.set, JsHeap.get] at hget ⊢
  induction objs with
  | nil => simp [List.find?] at hget
  | cons p rest ih =>
    simp only [List.map_cons]
    cases hpb : (p.1 == b) with
    | true =>
      rw [if_pos rfl]
      rw [@List.find?_cons_of_pos _ (fun q => q.1 == b) (b, o) _ (by simp)]
      rfl
    | false =>
      rw [if_neg (by simp)]
      rw [@List.find?_cons_of_neg _ (fun q => q.1 == b) p _ (by simp [hpb])]
      rw [@List.find?_cons_of_neg _ (fun q => q.1 == b) p _ (by simp [hpb])] at hget
      exact ih hget

/-- Invariant of the `formatRow` loop over the heap: the loop computes the
pure fold at the copy's address and never touches any other address. -/
theorem fold_heap_inv :
    ∀ (keys : List String) (hh : JsHeap) (ra sa : Nat) (cur osrc : Obj),
      ra ≠ sa → hh.get ra = some cur → hh.get sa = some osrc →
      (keys.foldl (fun acc key => acc.set ra (formatRowStep ((acc.get ra).getD []) key)) hh).get ra
          = some (keys.foldl formatRowStep cur) ∧
      (keys.foldl (fun acc key => acc.set ra (formatRowStep ((acc.get ra).getD []) key)) hh).get sa
          = some osrc := by
  intro keys
  induction keys with
  | nil => intro hh ra sa cur osrc _ hra hsa; exact ⟨hra, hsa⟩
  | cons k rest ih =>
    intro hh ra sa cur osrc hne hra hsa
    simp only [List.foldl_cons]
    have h1 : (hh.set ra (formatRowStep ((hh.get ra).getD []) k)).get ra
        = some (formatRowStep cur k) := by
      rw [hra]
      exact JsHeap.get_set_self hh ra _ cur hra
    have h2 : (hh.set ra (formatRowStep ((hh.get ra).getD []) k)).get sa = some osrc := by
      rw [JsHeap.get_set_ne hh sa ra _ (fun e => hne e.symm)]
      exact hsa
    exact ih _ ra sa (formatRowStep cur k) osrc hne h1 h2

/-- Claim C10: row reshaping never mutates its input.  On a well-formed
heap, `formatRowHeap` leaves the source row object unchanged, returns a
distinct (freshly allocated) address, and that fresh object holds the
reshaped row. -/
theorem spec_c10 :
    ∀ (h : JsHeap) (src : Nat) (o : Obj),
      JsHeap.wf h → h.get src = some o →
      (formatRowHeap h src).1.get src = some o ∧
      (formatRowHeap h src).2 ≠ src ∧
      (formatRowHeap h src).1.get (formatRowHeap h src).2 = some (formatRow o) := by
  intro h src o hwf hget
  have hlt : src < h.nextAddr := by
    obtain ⟨p, hp, hpa, _⟩ := JsHeap.get_mem h src o hget
    exact hpa ▸ hwf p hp
  have hne : h.nextAddr ≠ src := by omega
  have halloc1 : (JsHeap.mk (h.objects ++ [(h.nextAddr, o)]) (h.nextAddr + 1)).get src = some o :=
    JsHeap.get_alloc_pres h src o o hget
  have halloc2 : (JsHeap.mk (h.objects ++ [(h.nextAddr, o)]) (h.nextAddr + 1)).get h.nextAddr
      = some o := JsHeap.get_alloc_fresh h o hwf
  have hfold := fold_heap_inv (o.map Prod.fst)
    (JsHeap.mk (h.objects ++ [(h.nextAddr, o)]) (h.nextAddr + 1)) h.nextAddr src o o
    hne halloc2 halloc1
  simp only [formatRowHeap]
  rw [hget]
  simp only [Option.getD_some, JsHeap.alloc]
  exact ⟨hfold.2, hne, hfold.1⟩

/-- Claim C10, witness: on the concrete one-object heap the source object
survives reshaping untouched, and the result lives at a fresh address. -/
theorem spec_c10_witness :
    (formatRowHeap sampleHeap 0).1.get 0 = some [("a", JsValue.num 1)] ∧
    (formatRowHeap sampleHeap 0).2 ≠ 0 ∧
    (formatRowHeap sampleHeap 0).1.get (formatRowHeap sampleHeap 0).2 =
      some (formatRow [("a", JsValue.num 1)]) :=
  spec_c10 sampleHeap 0 _ (by unfold JsHeap.wf; decide) rfl
